import Mathlib

/-!
Shallow embedding of the narrative-state scheduling and variation engine of
the Rin-AI-Influencer repository, together with theorems settling the frozen
claims about it.  Python floats are modelled as rationals, `datetime`
instants as rationals (hours or minutes), dictionaries as association lists,
and the random source as explicit pick parameters / candidate streams.
-/

/-! ## Variation State Store (generators/variation_state.py) -/

/-- Persisted mapping of cycle keys to rotation indices, plus the dirty flag.
Mirrors the `VariationState` class: `_indexes` is a JSON-backed dict (values
may be arbitrary integers when read from disk), `_dirty` tracks pending
writes. -/
structure VariationState where
  indexes : List (String × Int)
  dirty : Bool
deriving DecidableEq

namespace VariationState

/-- Dict read with default 0: `self._indexes.get(key, 0)`. -/
def getStored (st : VariationState) (key : String) : Int :=
  (st.indexes.lookup key).getD 0

/-- Dict assignment `self._indexes[key] = v` (single binding per key). -/
def setStored (st : VariationState) (key : String) (v : Int) : VariationState :=
  { st with indexes := (key, v) :: st.indexes.filter (fun p => p.1 != key) }

/-- `get_index(key, length)`: `0` when `length <= 0`, otherwise the stored
value modulo `length` (Python `%` with a positive divisor, i.e. `Int.emod`). -/
def get_index (st : VariationState) (key : String) (length : Int) : Int :=
  if length ≤ 0 then 0
  else st.getStored key % length

/-- `advance(key, length)`: no-op when `length <= 0`, otherwise store
`(current + 1) % length` where `current` is the stored value modulo
`length`, and mark the state dirty. -/
def advance (st : VariationState) (key : String) (length : Int) : VariationState :=
  if length ≤ 0 then st
  else
    let current := st.getStored key % length
    { (st.setStored key ((current + 1) % length)) with dirty := true }

end VariationState

/-! ## Content Selection Engine (generators/image_gen.py) -/

/-- One entry of a confidence-gated option list (the dicts of
`CATEGORY_POSES` / `CATEGORY_ENVIRONMENTS`): only the `min_confidence`
field (with its `.get` default of `0.0`) drives the selection logic; `id`
stands for the remaining payload (`prompt` / `pose_key` / `text`). -/
structure SelOption where
  id : Nat
  min_confidence : ℚ
deriving DecidableEq

/-- Default used to totalize list indexing that the source performs with an
in-range index. -/
def defOpt : SelOption := { id := 0, min_confidence := 0 }

/-- `_select_with_confidence(state, key, options, confidence)`.  Returns the
chosen option (`none` models the empty-dict return on an empty list), the
advanced flag, and the resulting state. -/
def select_with_confidence (state : VariationState) (key : String)
    (options : List SelOption) (confidence : ℚ) :
    (Option SelOption × Bool) × VariationState :=
  if options.isEmpty then ((none, false), state)
  else
    let idx := (state.get_index key options.length).toNat
    let option := options.getD idx defOpt
    if option.min_confidence ≤ confidence then
      ((some option, true), state.advance key options.length)
    else
      match options.find? (fun c => decide (c.min_confidence ≤ confidence)) with
      | some c => ((some c, false), state)
      | none => ((some (options.getD 0 defOpt), false), state)

/-- Ephemeral idea/location candidate record (the `place` dicts of
`generators/idea_generator.py`).  Fields the code fills with `setdefault`
are modelled as always-present strings. -/
structure Place where
  name : String
  description : String
  keywords : List String
  shot_category : String
  arc : String
  arc_mood : String
  arc_beat : String
deriving DecidableEq

/-- `_background_confidence(bg_refs, place)`: base `0.15`, plus `0.15` when
the place exists and has a non-empty keyword list, plus `0.25` per fetched
reference image capped at 3, the total capped at `1.0`. -/
def background_confidence (bg_refs : List String) (place : Option Place) : ℚ :=
  let kwBonus : ℚ :=
    match place with
    | some p => if p.keywords.isEmpty then 0 else 0.15
    | none => 0
  let confidence : ℚ := 0.15 + kwBonus + (min bg_refs.length 3 : ℕ) * 0.25
  min confidence 1

/-! ## Scene/Arc Memory and idea generation (generators/idea_generator.py) -/

/-- One entry of the fixed `WEEKLY_ARCS` catalog. -/
structure Arc where
  name : String
  description : String
  locations : List String
  beats : List String
  moods : List String
  shot_bias : String
deriving DecidableEq

/-- The fixed catalog of narrative arcs (`WEEKLY_ARCS`). -/
def WEEKLY_ARCS : List Arc := [
  { name := "Cafe Drift Week"
  , description := "Rin spends the week journaling in different French Concession caf√©s, chasing soft daylight and quiet corners."
  , locations := ["Anfu Road caf√©s", "Ferguson Lane courtyard", "Tianzifang back lanes", "Xintiandi side streets", "Wukang Road windows"]
  , beats := ["soft morning journal", "noon latte refill", "rainy window reflection", "evening latte art study", "weekend slow brunch"]
  , moods := ["sleepy", "focused", "reflective", "hopeful"]
  , shot_bias := "selfie_morning" },
  { name := "Metro Echoes"
  , description := "Commuting across Line 2 and 10, watching strangers and neon tunnels, collecting feelings between stations."
  , locations := ["Jing\x27an Temple metro station", "Xujiahui exit crowd", "Lujiazui platform edge", "Zhongshan Park transfer", "West Nanjing Road escalators"]
  , beats := ["morning commute", "crowded noon ride", "quiet carriage scroll", "rain on metro windows", "late ride home"]
  , moods := ["observant", "introspective", "restless"]
  , shot_bias := "street_casual" },
  { name := "Night Walks by the River"
  , description := "Night walks around Suzhou Creek and the Bund, letting neon and humidity soften the day."
  , locations := ["North Bund boardwalk", "West Bund riverside path", "Sihang Warehouse riverfront", "Cool Docks", "Fuxing Park after dark"]
  , beats := ["blue hour walk", "post-edit stretch", "humid neon pause", "footbridge reflections", "late ferry breeze"]
  , moods := ["melancholy", "curious", "calm"]
  , shot_bias := "cozy_night" },
  { name := "Study Chinese Week"
  , description := "Preparing for a test with vocab cards, caf√© study sessions, and conversations with baristas."
  , locations := ["Fuxing Park benches", "Sinan Mansions library caf√©", "K11 study corner", "Taikoo Li community tables", "apartment desk near Jing\x27an"]
  , beats := ["morning vocab warmup", "tone practice at lunch", "flashcards on the metro", "tired evening review", "weekend mock test"]
  , moods := ["hopeful", "focused", "tired", "determined"]
  , shot_bias := "selfie_mirror" },
  { name := "Mall Weekends"
  , description := "Escaping weather by roaming malls, trying snacks, and watching escalator lights."
  , locations := ["Taikoo Li Qiantan", "MixC Mall", "TX Huaihai", "K11 Art Mall", "Jing\x27an Kerry Center"]
  , beats := ["morning escalator ride", "window shopping pause", "food court break", "arcade detour", "night roof deck"]
  , moods := ["playful", "restless", "cosy"]
  , shot_bias := "street_casual" }]

/-- Whitespace recognized by the `\s` class for the inputs at hand. -/
def isSpaceChar (c : Char) : Bool :=
  c == ' ' || c == '\t' || c == '\n' || c == '\r'

/-- Collapse each maximal whitespace run to a single space
(`_WHITESPACE_RE.sub(" ", ...)`); the Bool argument records whether the
previous character was whitespace. -/
def collapseWs : Bool → List Char → List Char
  | _, [] => []
  | prevSpace, c :: rest =>
    if isSpaceChar c then
      if prevSpace then collapseWs true rest
      else ' ' :: collapseWs true rest
    else c :: collapseWs false rest

/-- Python `str.strip()` on both ends. -/
def stripWs (l : List Char) : List Char :=
  ((l.dropWhile isSpaceChar).reverse.dropWhile isSpaceChar).reverse

/-- `_normalized(s)`: lowercase, strip, collapse inner whitespace runs to a
single space. -/
def normalized (s : String) : String :=
  String.mk (collapseWs false (stripWs (s.data.map Char.toLower)))

/-- The location deny-list (`BANNED_LOCATIONS`). -/
def BANNED_LOCATIONS : List String := ["yu garden", "yuyuan"]

/-- `_apply_location_rules(place, recent_locations)`: raise (`Except.error`)
when the normalized name is exactly a banned entry; append the freshness
clause to the description when the name was recently used; otherwise return
the place unchanged. -/
def apply_location_rules (place : Place) (recent_locations : List String) :
    Except String Place :=
  let nn := normalized place.name
  if nn ∈ BANNED_LOCATIONS then Except.error "location banned"
  else if place.name ∈ recent_locations then
    Except.ok { place with
      description := place.description ++ "; choose a new angle to keep it fresh" }
  else Except.ok place

/-- `_fallback_location(arc, category)`: deterministic fallback candidate
drawn from the arc's location list; the two `random.choice` calls are
modelled by the pick parameters (`pick % pool.length` indexing). -/
def fallback_location (arc : Arc) (category : String)
    (pickLoc pickMood : ℕ) : Place :=
  let locs := if arc.locations.isEmpty then ["Shanghai side street"] else arc.locations
  { name := locs.getD (pickLoc % locs.length) ""
  , description := "Scene for " ++ arc.name ++ " arc."
  , keywords := ["shanghai", "street", category]
  , shot_category := category
  , arc := arc.name
  , arc_mood :=
      (let moods := if arc.moods.isEmpty then ["calm"] else arc.moods
       moods.getD (pickMood % moods.length) "")
  , arc_beat := if arc.beats.isEmpty then "" else arc.beats.getD 0 "" }

/-- The location-policy portion of `generate_idea` (lines 406-410): apply
the location rules to the candidate; on a rule violation fall back to
`_fallback_location(arc, category)` instead of surfacing an error. -/
def resolve_place (arc : Arc) (category : String) (cand : Place)
    (recent_locations : List String) (pickLoc pickMood : ℕ) : Place :=
  match apply_location_rules cand recent_locations with
  | Except.ok p => p
  | Except.error _ => fallback_location arc category pickLoc pickMood

/-- `_choose_new_arc(previous)`: pick from the catalog entries whose name
differs from `previous` (the whole catalog when that pool is empty);
`random.choice` is modelled by `pick % pool.length`. -/
def defArc : Arc :=
  { name := "", description := "", locations := [], beats := [], moods := []
  , shot_bias := "" }

def choose_new_arc (previous : Option String) (pick : ℕ) : Arc :=
  let pool := WEEKLY_ARCS.filter (fun a => decide (previous ≠ some a.name))
  let pool := if pool.isEmpty then WEEKLY_ARCS else pool
  pool.getD (pick % pool.length) defArc

/-- The persisted scene-memory record. -/
structure Memory where
  week_start : String
  arc : Option String
  beat_index : Int
  recent_locations : List String
  recent_moods : List String
  last_update : Option String
deriving DecidableEq

/-- The fresh record `_ensure_arc` substitutes on a week rollover (and that
`_load_scene_memory` builds when the file is missing or corrupt). -/
def fresh_memory (week_start : String) : Memory :=
  { week_start := week_start, arc := none, beat_index := 0
  , recent_locations := [], recent_moods := [], last_update := none }

/-- `_ensure_arc(memory)`: replace the record wholesale when the stored
week start differs from the current week's Monday (`current_week`); then,
when the stored arc name has no catalog match, select a new arc via
`_choose_new_arc` and reset the beat index. -/
def ensure_arc (memory : Memory) (current_week : String) (pick : ℕ) :
    Memory × Arc :=
  let memory := if memory.week_start ≠ current_week then fresh_memory current_week else memory
  match WEEKLY_ARCS.find? (fun a => decide (memory.arc = some a.name)) with
  | some arc => (memory, arc)
  | none =>
    let arc := choose_new_arc memory.arc pick
    ({ memory with arc := some arc.name, beat_index := 0 }, arc)

/-- `_update_memory(memory, arc, place, mood)`: increment the beat index,
prepend into the bounded (6) recency lists, stamp the update time. -/
def update_memory (memory : Memory) (arc : Arc) (place : Place)
    (mood : String) (now : String) : Memory :=
  { memory with
    arc := some arc.name
  , beat_index := memory.beat_index + 1
  , recent_locations := (place.name :: memory.recent_locations).take 6
  , recent_moods := (mood :: memory.recent_moods).take 6
  , last_update := some now }

/-! ## Cadence Planner (core/scheduler.py) -/

/-- The branch logic of `_decide_post_count` after its two helpers have
produced the engagement score (`_engagement_hint`) and the hours since the
last post (`_recent_hours_since_last_post`); `randDraw` is the
`random.random()` outcome of the bonus-reel branch. -/
def decide_post_count (engagement hours randDraw : ℚ) : ℕ :=
  if 28 < hours ∧ 0.35 < engagement then 2
  else if 0.55 < engagement ∧ 18 < hours then 2
  else if randDraw < 0.15 then 2
  else 1

/-- `ENGAGEMENT_BUFFER_MINUTES`; instants are modelled in minutes. -/
def ENGAGEMENT_BUFFER_MINUTES : ℚ := 45

/-- `_is_far_from_post(candidate, post_times)`: the candidate is strictly
more than the buffer away from every listed instant. -/
def is_far_from_post (candidate : ℚ) (post_times : List ℚ) : Bool :=
  post_times.all (fun pt => decide (ENGAGEMENT_BUFFER_MINUTES < |candidate - pt|))

/-- Loop body of `_engagement_slots`: `budget` is the remaining attempt
budget (initially `desired * 6`), `attempt` indexes the candidate stream
`cands` (the successive `_random_time_between` draws). -/
def engagement_slots_aux (cands : ℕ → ℚ) (post_times : List ℚ) (desired : ℕ) :
    List ℚ → ℕ → ℕ → List ℚ
  | slots, _, 0 => slots
  | slots, attempt, budget + 1 =>
    if desired ≤ slots.length then slots
    else
      let candidate := cands attempt
      let slots' :=
        if is_far_from_post candidate post_times && is_far_from_post candidate slots
        then slots ++ [candidate] else slots
      engagement_slots_aux cands post_times desired slots' (attempt + 1) budget

/-- `_engagement_slots(desired, arc_snapshot, post_times)`: accepts
candidates that respect the buffer against posts and already-chosen slots,
within an attempt budget of `desired * 6`.  The mood-adjusted sampling
window only shapes where the random candidates fall, so the draws are
abstracted into the stream `cands`. -/
def engagement_slots (desired : ℕ) (cands : ℕ → ℚ) (post_times : List ℚ) : List ℚ :=
  engagement_slots_aux cands post_times desired [] 0 (desired * 6)

/-! ## Engagement Targeting & Throttling (engagement/engagement_engine.py) -/

/-- One persisted engagement-history entry; `timestamp` is the result of
`_parse_timestamp` (in hours, `none` for an unparseable stamp). -/
structure HistoryEntry where
  account_id : String
  media_id : String
  comment : String
  timestamp : Option ℚ
  status : String
deriving DecidableEq

/-- `_account_in_cooldown(account_id, history)`: scan the history
most-recent-first; the first entry for the account decides (the loop breaks
there): in cooldown exactly when its timestamp parses and lies after
`now - cooldown_hours`.  The outcome status of the entry is not consulted. -/
def account_in_cooldown (account_id : String) (history : List HistoryEntry)
    (now cooldown_hours : ℚ) : Bool :=
  let cutoff := now - cooldown_hours
  match history.reverse.find? (fun e => e.account_id == account_id) with
  | some e =>
    match e.timestamp with
    | some ts => decide (cutoff < ts)
    | none => false
  | none => false

/-! ## Pipeline Orchestrator (run_post_cycle.py) -/

/-- The result record `run_post_cycle` returns.  The early-return record for
a missing persona carries only the five null fields (`media_path` and
`media_type` absent, modelled as `none`). -/
structure CycleResult where
  idea : Option String
  place : Option Place
  caption : Option String
  image : Option String
  media_path : Option String
  media_type : Option String
  posted : Bool
deriving DecidableEq

/-- Control-flow skeleton of `run_post_cycle`.  Collaborator outcomes are
passed in: `personaRes` is the outcome of `get_persona`/`load_persona`
(which raises — `Except.error` — on a missing or unreadable persona file
and otherwise returns the loaded field mapping; that exception propagates,
since the call site has no handler), `idea`/`place` come from
`generate_idea` (which absorbs its own API failures), `imageRes` from
`generate_image` (an exception propagates: no handler at the call site),
`clipRes` from `create_motion_clip`, `caption` from `generate_caption`
(which falls back internally and returns text), and `publishRes` from
`post_feed`, whose exception or error status is caught and only logged — it
does not alter the returned record, whose `posted` field is simply the
`auto_post` flag.  The source's `if not persona:` early return is kept as
the empty-mapping branch; it is dead in practice because every successful
`load_persona` populates at least `_persona_dir`. -/
def run_post_cycle (personaRes : Except String (List (String × String)))
    (idea : String) (place : Place)
    (imageRes : Except String String) (clipRes : Option String)
    (caption : String) (auto_post : Bool)
    (publishRes : Except String String) : Except String CycleResult :=
  match personaRes with
  | Except.error e => Except.error e
  | Except.ok persona =>
    if persona.isEmpty then
      Except.ok { idea := none, place := none, caption := none, image := none
                , media_path := none, media_type := none, posted := false }
    else
      match imageRes with
      | Except.error e => Except.error e
      | Except.ok img =>
        let media_path := clipRes.getD img
        let media_type := if clipRes.isSome then "video" else "image"
        let _ := fun (_ : Bool) => publishRes
        Except.ok { idea := some idea, place := some place, caption := some caption
                  , image := some img, media_path := some media_path
                  , media_type := some media_type, posted := auto_post }

/-! ## Substring matching (used to state the deny-list claims) -/

/-- Character-list version of "`needle` occurs at the start of `hay`". -/
def isLeadingRun : List Char → List Char → Bool
  | [], _ => true
  | _ :: _, [] => false
  | a :: as, b :: bs => a == b && isLeadingRun as bs

/-- Character-list substring occurrence test. -/
def containsSub (needle : List Char) : List Char → Bool
  | [] => isLeadingRun needle []
  | c :: rest => isLeadingRun needle (c :: rest) || containsSub needle rest

/-! ## Helper lemmas -/

theorem getStored_setStored_self (st : VariationState) (key : String) (v : Int) :
    (st.setStored key v).getStored key = v := by
  simp [VariationState.setStored, VariationState.getStored, List.lookup]

theorem getD_mem {α : Type} (l : List α) (n : ℕ) (d : α) (h : n < l.length) :
    l.getD n d ∈ l := by
  induction l generalizing n with
  | nil => simp at h
  | cons a t ih =>
    cases n with
    | zero => simp
    | succ m =>
      simp only [List.getD_cons_succ]
      exact List.mem_cons_of_mem a (ih m (by simpa using h))

theorem get_index_nonneg (st : VariationState) (key : String) {L : Int}
    (h : 0 < L) : 0 ≤ st.get_index key L := by
  simp only [VariationState.get_index, if_neg (not_le.mpr h)]
  exact Int.emod_nonneg _ (ne_of_gt h)

theorem get_index_lt (st : VariationState) (key : String) {L : Int}
    (h : 0 < L) : st.get_index key L < L := by
  simp only [VariationState.get_index, if_neg (not_le.mpr h)]
  exact Int.emod_lt_of_pos _ h

theorem get_index_advance (st : VariationState) (key : String) {L : Int}
    (h : 0 < L) :
    (st.advance key L).get_index key L = (st.get_index key L + 1) % L := by
  have hL : ¬ L ≤ 0 := not_le.mpr h
  simp only [VariationState.advance, VariationState.get_index, if_neg hL]
  have hs : ({ st.setStored key ((st.getStored key % L + 1) % L) with
      dirty := true } : VariationState).getStored key
      = (st.getStored key % L + 1) % L := by
    simp [VariationState.getStored, VariationState.setStored, List.lookup]
  rw [hs, Int.emod_emod_of_dvd _ dvd_rfl]

theorem get_index_iterate (st : VariationState) (key : String) {L : Int}
    (h : 0 < L) (n : ℕ) :
    ((fun s => VariationState.advance s key L)^[n] st).get_index key L
      = (st.get_index key L + n) % L := by
  induction n with
  | zero =>
    have hL : ¬ L ≤ 0 := not_le.mpr h
    simp only [Function.iterate_zero, id_eq, Nat.cast_zero, add_zero]
    simp only [VariationState.get_index, if_neg hL]
    exact (Int.emod_emod_of_dvd _ dvd_rfl).symm
  | succ m ih =>
    rw [Function.iterate_succ_apply']
    rw [get_index_advance _ _ h, ih]
    rw [Int.emod_add_emod]
    push_cast
    ring_nf

/-- C2. VariationState rotation contract: for `L > 0`, `get_index` lies in
`[0, L)` and (being a pure read in this embedding, hence side-effect free
and idempotent between advances) after `n` `advance` calls it equals the
original index plus `n` modulo `L`, so repeated advances cycle through
`0..L-1` and back; for `L ≤ 0`, `get_index` is `0` and `advance` returns
the state unchanged. -/
theorem variation_state_rotation_contract (st : VariationState) (key : String)
    (L : Int) :
    (0 < L →
      0 ≤ st.get_index key L ∧ st.get_index key L < L ∧
      (∀ n : ℕ,
        ((fun s => VariationState.advance s key L)^[n] st).get_index key L
          = (st.get_index key L + n) % L)) ∧
    (L ≤ 0 → st.get_index key L = 0 ∧ st.advance key L = st) := by
  constructor
  · intro h
    exact ⟨get_index_nonneg st key h, get_index_lt st key h,
      fun n => get_index_iterate st key h n⟩
  · intro h
    constructor
    · simp [VariationState.get_index, if_pos h]
    · simp [VariationState.advance, if_pos h]

/-- Witness for C2 at a concrete state: key stored at 1 with cycle length 3
advances 1 → 2 → 0. -/
theorem variation_state_rotation_contract_witness :
    (⟨[("pose:street_casual", 1)], false⟩ : VariationState).get_index
        "pose:street_casual" 3 = 1 ∧
    (((fun s => VariationState.advance s "pose:street_casual" 3)^[2]
        (⟨[("pose:street_casual", 1)], false⟩ : VariationState)).get_index
        "pose:street_casual" 3) = 0 := by
  have h := (variation_state_rotation_contract
    (⟨[("pose:street_casual", 1)], false⟩ : VariationState)
    "pose:street_casual" 3).1 (by decide)
  refine ⟨by decide, ?_⟩
  rw [h.2.2 2]
  decide

/-- C1. Confidence-gated selection: when the option at the current rotation
index meets the confidence, it is returned with the advanced flag and the
rotation index advances by one modulo the list length; otherwise the first
option in list order meeting the confidence is returned with the state left
unchanged; when none meets it, the first option of the list is returned with
the state left unchanged. -/
theorem select_with_confidence_gating (st : VariationState) (key : String)
    (options : List SelOption) (conf : ℚ) (hne : options ≠ []) :
    ((options.getD (st.get_index key options.length).toNat defOpt).min_confidence ≤ conf →
      select_with_confidence st key options conf =
        ((some (options.getD (st.get_index key options.length).toNat defOpt), true),
          st.advance key options.length) ∧
      (st.advance key options.length).get_index key options.length =
        (st.get_index key options.length + 1) % options.length) ∧
    (conf < (options.getD (st.get_index key options.length).toNat defOpt).min_confidence →
      (select_with_confidence st key options conf).2 = st ∧
      (select_with_confidence st key options conf).1.2 = false ∧
      (∀ c, options.find? (fun o => decide (o.min_confidence ≤ conf)) = some c →
        (select_with_confidence st key options conf).1.1 = some c) ∧
      (options.find? (fun o => decide (o.min_confidence ≤ conf)) = none →
        (select_with_confidence st key options conf).1.1 = some (options.getD 0 defOpt))) := by
  have hE : options.isEmpty = false := by
    cases options with
    | nil => exact absurd rfl hne
    | cons a t => rfl
  have hLpos : (0 : ℤ) < options.length := by
    exact_mod_cast List.length_pos.mpr hne
  constructor
  · intro hmeet
    refine ⟨?_, get_index_advance st key hLpos⟩
    simp only [select_with_confidence, hE, Bool.false_eq_true, if_false, if_pos hmeet]
  · intro hlt
    have hnot : ¬ (options.getD (st.get_index key options.length).toNat
        defOpt).min_confidence ≤ conf := not_le.mpr hlt
    simp only [select_with_confidence, hE, Bool.false_eq_true, if_false, if_neg hnot]
    cases hf : options.find? (fun o => decide (o.min_confidence ≤ conf)) with
    | some c => simp [hf]
    | none => simp [hf]

/-- Witness for C1 at the claim's concrete scenario: confidence `0`, options
with thresholds `0` and `0.5`, rotation index pointing at the second option:
the first option is returned, not advanced, and the state is unchanged. -/
theorem select_with_confidence_gating_witness :
    (([⟨1, 0⟩, ⟨2, 0.5⟩] : List SelOption) ≠ []) ∧
    (select_with_confidence ⟨[("pose:street_casual", 1)], false⟩
        "pose:street_casual" [⟨1, 0⟩, ⟨2, 0.5⟩] 0).2 =
      ⟨[("pose:street_casual", 1)], false⟩ ∧
    (select_with_confidence ⟨[("pose:street_casual", 1)], false⟩
        "pose:street_casual" [⟨1, 0⟩, ⟨2, 0.5⟩] 0).1.1 = some ⟨1, 0⟩ ∧
    (select_with_confidence ⟨[("pose:street_casual", 1)], false⟩
        "pose:street_casual" [⟨1, 0⟩, ⟨2, 0.5⟩] 0).1.2 = false := by
  have h := (select_with_confidence_gating ⟨[("pose:street_casual", 1)], false⟩
    "pose:street_casual" [⟨1, 0⟩, ⟨2, 0.5⟩] 0 (by decide)).2
    (by norm_num [VariationState.get_index, VariationState.getStored, List.lookup])
  exact ⟨by decide, h.1, h.2.2.1 ⟨1, 0⟩ (by decide), h.2.1⟩

theorem background_confidence_lower (bg_refs : List String) (place : Option Place) :
    0.15 ≤ background_confidence bg_refs place := by
  have hm : (0 : ℚ) ≤ ((min bg_refs.length 3 : ℕ) : ℚ) := Nat.cast_nonneg _
  unfold background_confidence
  rcases place with _ | p
  · simp only
    refine le_min (by nlinarith) (by norm_num)
  · simp only
    split_ifs with hk
    · refine le_min (by nlinarith) (by norm_num)
    · refine le_min (by nlinarith) (by norm_num)

/-- C10. Background confidence always lies in `[0.15, 1]`, hence every
selection option with `min_confidence ≤ 0.15` is eligible at any computed
confidence, and the unconditional "no option meets the threshold" fallback
of `_select_with_confidence` is unreachable whenever the option list
contains a `min_confidence = 0` entry: the returned option always meets the
threshold. -/
theorem background_confidence_bounds (bg_refs : List String) (place : Option Place) :
    0.15 ≤ background_confidence bg_refs place ∧
    background_confidence bg_refs place ≤ 1 ∧
    (∀ o : SelOption, o.min_confidence ≤ 0.15 →
      o.min_confidence ≤ background_confidence bg_refs place) ∧
    (∀ (st : VariationState) (key : String) (options : List SelOption)
        (r : SelOption) (b : Bool) (st' : VariationState),
      (∃ o ∈ options, o.min_confidence = 0) →
      select_with_confidence st key options (background_confidence bg_refs place) =
        ((some r, b), st') →
      r.min_confidence ≤ background_confidence bg_refs place) := by
  have hlow := background_confidence_lower bg_refs place
  refine ⟨hlow, ?_, ?_, ?_⟩
  · unfold background_confidence
    rcases place with _ | p
    · exact min_le_right _ _
    · exact min_le_right _ _
  · intro o ho
    exact ho.trans hlow
  · intro st key options r b st' hex heq
    obtain ⟨o, ho, ho0⟩ := hex
    have hne : options ≠ [] := by rintro rfl; simp at ho
    have hE : options.isEmpty = false := by
      cases options with
      | nil => exact absurd rfl hne
      | cons a t => rfl
    set conf := background_confidence bg_refs place with hconf
    simp only [select_with_confidence, hE, Bool.false_eq_true, if_false] at heq
    by_cases hgate : (options.getD (st.get_index key options.length).toNat
        defOpt).min_confidence ≤ conf
    · rw [if_pos hgate] at heq
      simp only [Prod.mk.injEq, Option.some.injEq] at heq
      obtain ⟨⟨hr, _⟩, _⟩ := heq
      rw [← hr]
      exact hgate
    · rw [if_neg hgate] at heq
      cases hf : options.find? (fun c => decide (c.min_confidence ≤ conf)) with
      | some c =>
        rw [hf] at heq
        have hc := @List.find?_some SelOption
          (fun c => decide (c.min_confidence ≤ conf)) c options hf
        simp only [decide_eq_true_eq] at hc
        simp only [Prod.mk.injEq, Option.some.injEq] at heq
        obtain ⟨⟨hr, _⟩, _⟩ := heq
        rw [← hr]
        exact hc
      | none =>
        exfalso
        have := List.find?_eq_none.mp hf o ho
        apply this
        apply decide_eq_true
        rw [ho0]
        linarith

/-- Witness for C10: with no reference images and no place, the confidence
evaluates to the base `0.15`; an option with threshold `0.1` is eligible,
and on a list whose gated option has threshold `0.5` the scan returns the
zero-threshold option, which meets the confidence. -/
theorem background_confidence_bounds_witness :
    ((⟨7, 0.1⟩ : SelOption).min_confidence ≤ 0.15 ∧
     (⟨7, 0.1⟩ : SelOption).min_confidence ≤ background_confidence [] none) ∧
    ((∃ o ∈ ([⟨1, 0.5⟩, ⟨2, 0⟩] : List SelOption), o.min_confidence = 0) ∧
     (⟨2, 0⟩ : SelOption).min_confidence ≤ background_confidence [] none) := by
  have hv : background_confidence [] none = 0.15 := by
    norm_num [background_confidence]
  constructor
  · have h3 := (background_confidence_bounds [] none).2.2.1 ⟨7, 0.1⟩ (by norm_num)
    exact ⟨by norm_num, h3⟩
  · have hex : ∃ o ∈ ([⟨1, 0.5⟩, ⟨2, 0⟩] : List SelOption), o.min_confidence = 0 :=
      ⟨⟨2, 0⟩, by simp, rfl⟩
    have heq : select_with_confidence ⟨[], false⟩ "environment:selfie_morning"
        [⟨1, 0.5⟩, ⟨2, 0⟩] (background_confidence [] none) =
        ((some ⟨2, 0⟩, false), ⟨[], false⟩) := by
      rw [hv]
      norm_num [select_with_confidence, VariationState.get_index,
        VariationState.getStored, List.lookup, List.find?, defOpt]
    exact ⟨hex, (background_confidence_bounds [] none).2.2.2 _ _ _ _ _ _ hex heq⟩

/-- C6. Post-count decision: the result is always 1 or 2; it is 2 whenever
hours-since-last-post exceeds 28 and the engagement score exceeds 0.35, and
whenever the engagement score exceeds 0.55 and hours exceed 18, regardless
of the random bonus draw; in particular it is 2 at hours 30 and engagement
0.4 for every draw. -/
theorem decide_post_count_spec (engagement hours randDraw : ℚ) :
    (decide_post_count engagement hours randDraw = 1 ∨
     decide_post_count engagement hours randDraw = 2) ∧
    (28 < hours → 0.35 < engagement →
      decide_post_count engagement hours randDraw = 2) ∧
    (0.55 < engagement → 18 < hours →
      decide_post_count engagement hours randDraw = 2) ∧
    decide_post_count 0.4 30 randDraw = 2 := by
  refine ⟨?_, ?_, ?_, ?_⟩
  · unfold decide_post_count
    split_ifs <;> simp
  · intro h1 h2
    unfold decide_post_count
    rw [if_pos ⟨h1, h2⟩]
  · intro h1 h2
    unfold decide_post_count
    split_ifs with ha hb
    · rfl
    · rfl
    · exact absurd ⟨h1, h2⟩ hb
    · exact absurd ⟨h1, h2⟩ hb
  · unfold decide_post_count
    rw [if_pos (by norm_num : (28 : ℚ) < 30 ∧ (0.35 : ℚ) < 0.4)]

/-- Witness for C6 at concrete inputs: hours 30, engagement 0.4, draw 0.99
gives 2 via the first escalation rule. -/
theorem decide_post_count_spec_witness :
    (28 : ℚ) < 30 ∧ (0.35 : ℚ) < 0.4 ∧ decide_post_count 0.4 30 0.99 = 2 := by
  refine ⟨by norm_num, by norm_num, ?_⟩
  exact (decide_post_count_spec 0.4 30 0.99).2.1 (by norm_num) (by norm_num)

theorem is_far_from_post_iff (c : ℚ) (l : List ℚ) :
    is_far_from_post c l = true ↔
      ∀ p ∈ l, ENGAGEMENT_BUFFER_MINUTES < |c - p| := by
  simp [is_far_from_post, List.all_eq_true]

theorem engagement_slots_aux_invariant (cands : ℕ → ℚ) (post_times : List ℚ)
    (desired : ℕ) (slots : List ℚ) (attempt budget : ℕ)
    (hlen : slots.length ≤ desired)
    (hfar : ∀ s ∈ slots, ∀ p ∈ post_times, ENGAGEMENT_BUFFER_MINUTES < |s - p|)
    (hpw : slots.Pairwise (fun a b => ENGAGEMENT_BUFFER_MINUTES < |a - b|)) :
    (engagement_slots_aux cands post_times desired slots attempt budget).length ≤ desired ∧
    (∀ s ∈ engagement_slots_aux cands post_times desired slots attempt budget,
      ∀ p ∈ post_times, ENGAGEMENT_BUFFER_MINUTES < |s - p|) ∧
    (engagement_slots_aux cands post_times desired slots attempt budget).Pairwise
      (fun a b => ENGAGEMENT_BUFFER_MINUTES < |a - b|) := by
  induction budget generalizing slots attempt with
  | zero => exact ⟨hlen, hfar, hpw⟩
  | succ b ih =>
    by_cases hd : desired ≤ slots.length
    · simp only [engagement_slots_aux, if_pos hd]
      exact ⟨hlen, hfar, hpw⟩
    · simp only [engagement_slots_aux, if_neg hd]
      by_cases hok : (is_far_from_post (cands attempt) post_times &&
          is_far_from_post (cands attempt) slots) = true
      · rw [if_pos hok]
        obtain ⟨h1, h2⟩ := Bool.and_eq_true_iff.mp hok
        have hfp := (is_far_from_post_iff _ _).mp h1
        have hfs := (is_far_from_post_iff _ _).mp h2
        apply ih
        · have : slots.length < desired := lt_of_not_le hd
          simpa using this
        · intro s hs p hp
          rcases List.mem_append.mp hs with hs | hs
          · exact hfar s hs p hp
          · rw [List.mem_singleton.mp hs]
            exact hfp p hp
        · rw [List.pairwise_append]
          refine ⟨hpw, List.pairwise_singleton _ _, ?_⟩
          intro a ha b hb
          rw [List.mem_singleton.mp hb, abs_sub_comm]
          exact hfs a ha
      · rw [if_neg hok]
        exact ih slots (attempt + 1) hlen hfar hpw

/-- C9. Engagement-burst buffer: for every desired count, candidate stream
and list of planned post instants (in minutes), `_engagement_slots` returns
at most `desired` instants, each strictly more than 45 minutes from every
planned post instant, and pairwise strictly more than 45 minutes apart; the
attempt budget `desired * 6` is structural in the definition, so fewer
slots than desired may result. -/
theorem engagement_slots_buffered (desired : ℕ) (cands : ℕ → ℚ)
    (post_times : List ℚ) :
    (engagement_slots desired cands post_times).length ≤ desired ∧
    (∀ s ∈ engagement_slots desired cands post_times,
      ∀ p ∈ post_times, ENGAGEMENT_BUFFER_MINUTES < |s - p|) ∧
    (engagement_slots desired cands post_times).Pairwise
      (fun a b => ENGAGEMENT_BUFFER_MINUTES < |a - b|) := by
  unfold engagement_slots
  exact engagement_slots_aux_invariant cands post_times desired [] 0 (desired * 6)
    (Nat.zero_le _) (by simp) List.Pairwise.nil

theorem choose_new_arc_avoids (previous : String) (pick : ℕ)
    (h : ∃ a ∈ WEEKLY_ARCS, a.name ≠ previous) :
    (choose_new_arc (some previous) pick).name ≠ previous := by
  obtain ⟨a, ha, han⟩ := h
  have hmem : a ∈ WEEKLY_ARCS.filter
      (fun a => decide ((some previous : Option String) ≠ some a.name)) := by
    refine List.mem_filter.mpr ⟨ha, ?_⟩
    have hps : previous ≠ a.name := fun h => han h.symm
    simp [hps]
  have hne : WEEKLY_ARCS.filter
      (fun a => decide ((some previous : Option String) ≠ some a.name)) ≠ [] :=
    List.ne_nil_of_mem hmem
  unfold choose_new_arc
  have hE : (WEEKLY_ARCS.filter
      (fun a => decide ((some previous : Option String) ≠ some a.name))).isEmpty
      = false := by
    cases hp : WEEKLY_ARCS.filter
        (fun a => decide ((some previous : Option String) ≠ some a.name)) with
    | nil => exact absurd hp hne
    | cons x t => rfl
  simp only [hE, Bool.false_eq_true, if_false]
  have hlen : 0 < (WEEKLY_ARCS.filter
      (fun a => decide ((some previous : Option String) ≠ some a.name))).length :=
    List.length_pos.mpr hne
  have hres := getD_mem _ (pick % (WEEKLY_ARCS.filter
    (fun a => decide ((some previous : Option String) ≠ some a.name))).length)
    defArc (Nat.mod_lt pick hlen)
  have hpred := (List.mem_filter.mp hres).2
  have hneq := of_decide_eq_true hpred
  exact fun hcontra => hneq (congrArg some hcontra.symm)

/-- C3 (amended). Arc re-selection avoids the stored arc name only when the
stored record survives to the selection: when the week matches and the
stored arc name has no catalog match, the newly selected arc's name differs
from the stored name whenever an alternative exists (`_choose_new_arc`
filters the previous name out of its pool).  After a week rollover the
record — including the arc name — is cleared before selection, so this
theorem deliberately does not cover that case (see the counterexample). -/
theorem arc_reselection_no_repeat_same_week (m : Memory) (week : String)
    (pick : ℕ) (name : String)
    (hweek : m.week_start = week)
    (harc : m.arc = some name)
    (hmiss : WEEKLY_ARCS.find? (fun a => decide (m.arc = some a.name)) = none)
    (halt : ∃ a ∈ WEEKLY_ARCS, a.name ≠ name) :
    (ensure_arc m week pick).2.name ≠ name := by
  unfold ensure_arc
  have hcond : ¬ m.week_start ≠ week := by simp [hweek]
  simp only [if_neg hcond, hmiss]
  rw [harc]
  exact choose_new_arc_avoids name pick halt

/-- Counterexample to C3 as stated: across a week rollover the stored arc
name ("Cafe Drift Week") is wiped to `none` before `_choose_new_arc` runs,
so the selection can return the very arc stored immediately before the
rollover even though alternatives exist. -/
theorem arc_reselection_rollover_counterexample :
    (ensure_arc
        { week_start := "2026-09-29", arc := some "Cafe Drift Week"
        , beat_index := 4, recent_locations := [], recent_moods := []
        , last_update := none } "2026-10-06" 0).2.name = "Cafe Drift Week" ∧
    ({ week_start := "2026-09-29", arc := some "Cafe Drift Week"
     , beat_index := 4, recent_locations := [], recent_moods := []
     , last_update := none } : Memory).week_start ≠ "2026-10-06" ∧
    (∃ a ∈ WEEKLY_ARCS, a.name ≠ "Cafe Drift Week") := by
  refine ⟨rfl, by decide, by decide⟩

/-- Witness for C3 (amended): a stale arc name outside the catalog, same
week: the re-selected arc's name differs from it. -/
theorem arc_reselection_no_repeat_same_week_witness :
    ({ week_start := "2026-10-06", arc := some "Retired Arc", beat_index := 2
     , recent_locations := [], recent_moods := [], last_update := none }
       : Memory).week_start = "2026-10-06" ∧
    (WEEKLY_ARCS.find? (fun a => decide
      (({ week_start := "2026-10-06", arc := some "Retired Arc", beat_index := 2
        , recent_locations := [], recent_moods := [], last_update := none }
          : Memory).arc = some a.name)) = none) ∧
    (∃ a ∈ WEEKLY_ARCS, a.name ≠ "Retired Arc") ∧
    (ensure_arc
      { week_start := "2026-10-06", arc := some "Retired Arc", beat_index := 2
      , recent_locations := [], recent_moods := [], last_update := none }
      "2026-10-06" 3).2.name ≠ "Retired Arc" := by
  refine ⟨rfl, by decide, by decide, ?_⟩
  exact arc_reselection_no_repeat_same_week _ _ 3 _ rfl rfl (by decide) (by decide)

/-- C4 (amended). Weekly state machine: on a week mismatch the beat index is
reset to 0 and both recency lists are cleared; on a matching week, the
memory record passes through unchanged when the stored arc name has a
catalog match, while a missing catalog match also resets the beat index to
0 (recency lists untouched) — so the reset is not *exactly* tied to week
rollover; each `_update_memory` call increments the beat index by one, so
within a week with a valid stored arc the index is non-decreasing. -/
theorem weekly_state_machine (m : Memory) (week : String) (pick : ℕ) :
    (m.week_start ≠ week →
      (ensure_arc m week pick).1.beat_index = 0 ∧
      (ensure_arc m week pick).1.recent_locations = [] ∧
      (ensure_arc m week pick).1.recent_moods = []) ∧
    (m.week_start = week →
      (∀ a, WEEKLY_ARCS.find? (fun a => decide (m.arc = some a.name)) = some a →
        (ensure_arc m week pick).1 = m) ∧
      (WEEKLY_ARCS.find? (fun a => decide (m.arc = some a.name)) = none →
        (ensure_arc m week pick).1.beat_index = 0 ∧
        (ensure_arc m week pick).1.recent_locations = m.recent_locations ∧
        (ensure_arc m week pick).1.recent_moods = m.recent_moods)) ∧
    (∀ arc place mood now,
      (update_memory m arc place mood now).beat_index = m.beat_index + 1) := by
  refine ⟨?_, ?_, ?_⟩
  · intro hne
    unfold ensure_arc
    simp only [if_pos hne]
    cases hf : WEEKLY_ARCS.find?
        (fun a => decide ((fresh_memory week).arc = some a.name)) with
    | some a => simp [hf, fresh_memory]
    | none => simp [hf, fresh_memory]
  · intro heq
    have hcond : ¬ m.week_start ≠ week := by simp [heq]
    constructor
    · intro a hf
      unfold ensure_arc
      simp only [if_neg hcond, hf]
    · intro hf
      unfold ensure_arc
      simp only [if_neg hcond, hf]
      exact ⟨trivial, trivial, trivial⟩
  · intro arc place mood now
    rfl

/-- Counterexample to C4 as stated: the beat index also resets to 0 when the
stored week matches the current week but the stored arc name has no catalog
match (here `none` with beat index 3), so the reset is not exactly tied to
a week_start mismatch. -/
theorem weekly_state_machine_counterexample :
    (ensure_arc
        { week_start := "2026-10-06", arc := none, beat_index := 3
        , recent_locations := ["Cool Docks"], recent_moods := ["calm"]
        , last_update := none } "2026-10-06" 0).1.beat_index = 0 ∧
    ({ week_start := "2026-10-06", arc := none, beat_index := 3
     , recent_locations := ["Cool Docks"], recent_moods := ["calm"]
     , last_update := none } : Memory).week_start = "2026-10-06" ∧
    ({ week_start := "2026-10-06", arc := none, beat_index := 3
     , recent_locations := ["Cool Docks"], recent_moods := ["calm"]
     , last_update := none } : Memory).beat_index = 3 := by
  refine ⟨rfl, rfl, rfl⟩

/-- Witness for C4 (amended): a week rollover clears the record, and an
update bumps the beat index from 7 to 8. -/
theorem weekly_state_machine_witness :
    ({ week_start := "2026-09-29", arc := some "Metro Echoes", beat_index := 7
     , recent_locations := ["Cool Docks"], recent_moods := ["calm"]
     , last_update := none } : Memory).week_start ≠ "2026-10-06" ∧
    (ensure_arc
      { week_start := "2026-09-29", arc := some "Metro Echoes", beat_index := 7
      , recent_locations := ["Cool Docks"], recent_moods := ["calm"]
      , last_update := none } "2026-10-06" 2).1.beat_index = 0 ∧
    (update_memory
      { week_start := "2026-09-29", arc := some "Metro Echoes", beat_index := 7
      , recent_locations := ["Cool Docks"], recent_moods := ["calm"]
      , last_update := none } defArc
      { name := "North Bund boardwalk", description := "", keywords := []
      , shot_category := "cozy_night", arc := "", arc_mood := "", arc_beat := "" }
      "calm" "2026-10-07T09:00:00").beat_index = 8 := by
  have h := weekly_state_machine
    { week_start := "2026-09-29", arc := some "Metro Echoes", beat_index := 7
    , recent_locations := ["Cool Docks"], recent_moods := ["calm"]
    , last_update := none } "2026-10-06" 2
  refine ⟨by decide, (h.1 (by decide)).1, ?_⟩
  rw [h.2.2 defArc _ "calm" "2026-10-07T09:00:00"]
  rfl

/-- C5 (amended). Banned-location policy as implemented: a candidate is
rejected (and replaced by the fallback drawn from the current arc's
location list) exactly on a case-insensitive, whitespace-normalized *exact*
match against the deny-list; a candidate passing that check keeps its name,
so names merely *containing* a banned entry as a substring are not
filtered (see the counterexample). -/
theorem banned_location_policy (arc : Arc) (category : String) (cand : Place)
    (recent : List String) (pickLoc pickMood : ℕ) :
    (normalized cand.name ∈ BANNED_LOCATIONS →
      resolve_place arc category cand recent pickLoc pickMood =
        fallback_location arc category pickLoc pickMood) ∧
    (normalized cand.name ∉ BANNED_LOCATIONS →
      (resolve_place arc category cand recent pickLoc pickMood).name = cand.name) ∧
    (arc.locations ≠ [] →
      (fallback_location arc category pickLoc pickMood).name ∈ arc.locations) := by
  refine ⟨?_, ?_, ?_⟩
  · intro hban
    unfold resolve_place apply_location_rules
    simp only [if_pos hban]
  · intro hok
    unfold resolve_place apply_location_rules
    simp only [if_neg hok]
    split_ifs with hrec
    · rfl
    · rfl
  · intro hne
    unfold fallback_location
    have hE : arc.locations.isEmpty = false := by
      cases hl : arc.locations with
      | nil => exact absurd hl hne
      | cons x t => rfl
    simp only [hE, Bool.false_eq_true, if_false]
    exact getD_mem _ _ _ (Nat.mod_lt _ (List.length_pos.mpr hne))

/-- Counterexample to C5 as stated: the candidate name "Yu Garden Plaza"
contains the banned entry "yu garden" as a (case-insensitive) substring,
yet it passes `_apply_location_rules` untouched and surfaces as the
produced candidate's `location.name`. -/
theorem banned_location_substring_counterexample :
    (resolve_place defArc "street_casual"
        { name := "Yu Garden Plaza", description := "busy plaza", keywords := []
        , shot_category := "street_casual", arc := "", arc_mood := ""
        , arc_beat := "" } [] 0 0).name = "Yu Garden Plaza" ∧
    containsSub "yu garden".data (normalized "Yu Garden Plaza").data = true ∧
    "yu garden" ∈ BANNED_LOCATIONS := by
  refine ⟨rfl, by decide, by decide⟩

/-- Witness for C5 (amended): the exact banned name "Yu Garden" is replaced
by the fallback, whose name comes from the arc's location list. -/
theorem banned_location_policy_witness :
    normalized "Yu Garden" ∈ BANNED_LOCATIONS ∧
    resolve_place (WEEKLY_ARCS.getD 0 defArc) "selfie_morning"
        { name := "Yu Garden", description := "", keywords := []
        , shot_category := "selfie_morning", arc := "", arc_mood := ""
        , arc_beat := "" } [] 1 2 =
      fallback_location (WEEKLY_ARCS.getD 0 defArc) "selfie_morning" 1 2 ∧
    (fallback_location (WEEKLY_ARCS.getD 0 defArc) "selfie_morning" 1 2).name ∈
      (WEEKLY_ARCS.getD 0 defArc).locations := by
  have h := banned_location_policy (WEEKLY_ARCS.getD 0 defArc) "selfie_morning"
    { name := "Yu Garden", description := "", keywords := []
    , shot_category := "selfie_morning", arc := "", arc_mood := ""
    , arc_beat := "" } [] 1 2
  exact ⟨by decide, h.1 (by decide), h.2.2 (by decide)⟩

/-- C8 (amended). Account cooldown as implemented: an account is in
cooldown if and only if the most recent history entry for it (first match
of the most-recent-first scan) has a parseable timestamp inside the
cooldown window — regardless of the entry's outcome status; in particular,
with a 4-hour window an entry 1 hour old excludes the account and an entry
5 hours old leaves it eligible. -/
theorem account_cooldown_scan (aid : String) (history : List HistoryEntry)
    (now ch : ℚ) :
    (account_in_cooldown aid history now ch = true ↔
      ∃ e, history.reverse.find? (fun x => x.account_id == aid) = some e ∧
        ∃ ts, e.timestamp = some ts ∧ now - ch < ts) ∧
    account_in_cooldown "x"
      [⟨"x", "m", "c", some 99, "success"⟩] 100 4 = true ∧
    account_in_cooldown "x"
      [⟨"x", "m", "c", some 95, "success"⟩] 100 4 = false := by
  refine ⟨?_, by norm_num [account_in_cooldown, List.find?], 
    by norm_num [account_in_cooldown, List.find?]⟩
  unfold account_in_cooldown
  cases hf : history.reverse.find? (fun x => x.account_id == aid) with
  | none => simp [hf]
  | some e =>
    cases ht : e.timestamp with
    | none => simp [hf, ht]
    | some ts => simp [hf, ht]

/-- Counterexample to C8 as stated: a *failed* comment attempt (status
"error") one hour old still puts the account in cooldown, because the scan
never consults the outcome status — contradicting the claim that only a
successful comment inside the window excludes the account. -/
theorem account_cooldown_status_counterexample :
    account_in_cooldown "acct_1"
      [⟨"acct_1", "m1", "c", some 9, "error"⟩] 10 4 = true ∧
    (⟨"acct_1", "m1", "c", some 9, "error"⟩ : HistoryEntry).status
      ≠ "success" := by
  refine ⟨by norm_num [account_in_cooldown, List.find?], by decide⟩

/-- C7 (amended). Orchestrator error behavior as implemented: a failed
persona load raises (the `FileNotFoundError` from `load_persona`
propagates out of `run_post_cycle`, which has no handler around
`get_persona`) — and an image-generation failure *also* propagates as an
exception, since the `generate_image` call site has no handler either; with
the persona loaded, a successful image stage yields a result record whose
`posted` field is just the `auto_post` flag and which is entirely
independent of the publish outcome (`post_feed` failures are caught and
only logged). -/
theorem run_post_cycle_error_propagation
    (personaRes : Except String (List (String × String)))
    (idea : String) (place : Place) (imageRes : Except String String)
    (clipRes : Option String) (caption : String) (auto_post : Bool)
    (publishRes publishRes' : Except String String) :
    (∀ e, personaRes = Except.error e →
      run_post_cycle personaRes idea place imageRes clipRes caption auto_post
          publishRes =
        Except.error e) ∧
    (∀ p img, personaRes = Except.ok p → p ≠ [] → imageRes = Except.ok img →
      run_post_cycle personaRes idea place imageRes clipRes caption auto_post
          publishRes =
        Except.ok ⟨some idea, some place, some caption, some img,
          some (clipRes.getD img),
          some (if clipRes.isSome then "video" else "image"), auto_post⟩) ∧
    (∀ p e, personaRes = Except.ok p → p ≠ [] → imageRes = Except.error e →
      run_post_cycle personaRes idea place imageRes clipRes caption auto_post
          publishRes =
        Except.error e) ∧
    (run_post_cycle personaRes idea place imageRes clipRes caption auto_post
        publishRes =
      run_post_cycle personaRes idea place imageRes clipRes caption auto_post
        publishRes') := by
  refine ⟨?_, ?_, ?_, ?_⟩
  · rintro e rfl
    rfl
  · rintro p img rfl hp rfl
    have hE : p.isEmpty = false := by
      cases p with
      | nil => exact absurd rfl hp
      | cons a t => rfl
    simp only [run_post_cycle, hE, Bool.false_eq_true, if_false]
  · rintro p e rfl hp rfl
    have hE : p.isEmpty = false := by
      cases p with
      | nil => exact absurd rfl hp
      | cons a t => rfl
    simp only [run_post_cycle, hE, Bool.false_eq_true, if_false]
  · cases personaRes with
    | error e => rfl
    | ok p =>
      cases hp : p.isEmpty with
      | true => simp [run_post_cycle, hp]
      | false =>
        cases imageRes with
        | error e => simp [run_post_cycle, hp]
        | ok img => simp [run_post_cycle, hp]

/-- Counterexample to C7 as stated: with the persona loaded, an
image-generation failure (a downstream-service failure) makes
`run_post_cycle` raise the error rather than return a result record,
contradicting "for every downstream-service failure ... it does not
raise". -/
theorem run_post_cycle_raises_counterexample :
    run_post_cycle (Except.ok [("display_name", "Rin")]) "metro window light"
        ⟨"Anfu Road", "", [], "street_casual", "", "", ""⟩
        (Except.error "image api failure") none "soft caption" true
        (Except.ok "posted") =
      Except.error "image api failure" := by
  rfl

/-- Witness for C7 (amended): the persona-load-failure and image-failure
branches applied at concrete inputs. -/
theorem run_post_cycle_error_propagation_witness :
    run_post_cycle (Except.error "Persona not found") "noon latte refill"
        ⟨"Ferguson Lane courtyard", "", [], "selfie_morning", "", "", ""⟩
        (Except.ok "rin_1.png") none "cozy caption" false (Except.ok "r") =
      Except.error "Persona not found" ∧
    ([("display_name", "Rin")] : List (String × String)) ≠ [] ∧
    run_post_cycle (Except.ok [("display_name", "Rin")]) "noon latte refill"
        ⟨"Ferguson Lane courtyard", "", [], "selfie_morning", "", "", ""⟩
        (Except.error "gemini down") none "cozy caption" false
        (Except.ok "r") =
      Except.error "gemini down" := by
  refine ⟨?_, by decide, ?_⟩
  · exact (run_post_cycle_error_propagation (Except.error "Persona not found")
      "noon latte refill"
      ⟨"Ferguson Lane courtyard", "", [], "selfie_morning", "", "", ""⟩
      (Except.ok "rin_1.png") none "cozy caption" false (Except.ok "r")
      (Except.ok "r")).1 "Persona not found" rfl
  · exact (run_post_cycle_error_propagation (Except.ok [("display_name", "Rin")])
      "noon latte refill"
      ⟨"Ferguson Lane courtyard", "", [], "selfie_morning", "", "", ""⟩
      (Except.error "gemini down") none "cozy caption" false (Except.ok "r")
      (Except.ok "r")).2.2.1 [("display_name", "Rin")] "gemini down" rfl
      (by decide) rfl

/-- Witness for C9 at concrete inputs: one desired slot, a candidate at
instant 0 and a planned post at instant 300: the candidate is accepted and
the bound holds. -/
theorem engagement_slots_buffered_witness :
    engagement_slots 1 (fun _ => 0) [300] = [0] ∧
    (engagement_slots 1 (fun _ => 0) [300]).length ≤ 1 ∧
    ENGAGEMENT_BUFFER_MINUTES < |(0 : ℚ) - 300| := by
  have h := engagement_slots_buffered 1 (fun _ => (0 : ℚ)) [300]
  have he : engagement_slots 1 (fun _ => (0 : ℚ)) [300] = [0] := by
    norm_num [engagement_slots, engagement_slots_aux, is_far_from_post,
      ENGAGEMENT_BUFFER_MINUTES]
  refine ⟨he, h.1, ?_⟩
  have hm : (0 : ℚ) ∈ engagement_slots 1 (fun _ => (0 : ℚ)) [300] := by
    rw [he]; simp
  exact h.2.1 0 hm 300 (by simp)
